import Mathlib

/-!
Verification of the numerical cores of the `pj4082` teaching repository:
the double-pendulum rigid-body simulator (`doublependulum.py`) and the
winch path generators (`path.py` scalar `Path`, `npath.py` vectorized `NPath`).

The Python floating-point state is modelled with idealized real numbers `ℝ`;
the loop bookkeeping of `timer_tick` / `update_for_interval` is likewise over
`ℝ` with the loops translated as well-founded recursions on the number of
remaining iterations.  `NPath.speed`, which the source stores as a float that
may be `np.inf`, is modelled as `EReal`.
-/

namespace PJ4082

/-- A four-component real vector, modelling the `np.array` of four floats used
for the pendulum state `[q1, q2, qd1, qd2]` and the derivative vector
`[qd1, qd2, qdd1, qdd2]`. -/
@[ext]
structure Vec4 where
  x1 : ℝ
  x2 : ℝ
  x3 : ℝ
  x4 : ℝ

namespace DoublePendulumSimulator

/-- The dynamic parameters of `DoublePendulumSimulator`
(`l1, l2, lc1, lc2, m1, m2, I1, I2, gravity`). -/
structure Params where
  l1 : ℝ
  l2 : ℝ
  lc1 : ℝ
  lc2 : ℝ
  m1 : ℝ
  m2 : ℝ
  I1 : ℝ
  I2 : ℝ
  gravity : ℝ

/-- `set_default_dynamic_parameters` from `doublependulum.py`:
`l1=l2=1`, `lc1=lc2=0.5`, `m1=m2=1`, `I = m*l^2/12`, `gravity=-9.81`. -/
noncomputable def default_dynamic_parameters : Params :=
  { l1 := 1.0
    l2 := 1.0
    lc1 := 0.5
    lc2 := 0.5
    m1 := 1.0
    m2 := 1.0
    I1 := (1.0 * 1.0 ^ 2) / 12
    I2 := (1.0 * 1.0 ^ 2) / 12
    gravity := -9.81 }

/-- `DoublePendulumSimulator.deriv` from `doublependulum.py`, translated line by
line.  `state` is `[q1, q2, qd1, qd2]`, (`tau1`, `tau2`) is `self.tau`; returns
the derivative vector `self.dydt`. -/
noncomputable def deriv (p : Params) (state : Vec4) (tau1 tau2 : ℝ) : Vec4 :=
  let q1 := state.x1
  let q2 := state.x2
  let qd1 := state.x3
  let qd2 := state.x4
  let LC1 := p.lc1
  let LC2 := p.lc2
  let L1 := p.l1
  let M1 := p.m1
  let M2 := p.m2
  let d11 := M1*LC1*LC1 + M2*(L1*L1 + LC2*LC2 + 2*L1*LC2*Real.cos q2) + p.I1 + p.I2
  let d12 := M2*(LC2*LC2 + L1*LC2*Real.cos q2) + p.I2
  let d21 := d12
  let d22 := M2*LC2*LC2 + p.I2
  let h1 := -M2*L1*LC2*Real.sin q2*qd2*qd2 - 2*M2*L1*LC2*Real.sin q2*qd2*qd1
  let h2 := M2*L1*LC2*Real.sin q2*qd1*qd1
  let phi1 := -M2*LC2*p.gravity*Real.sin (q1+q2) - (M1*LC1 + M2*L1) * p.gravity * Real.sin q1
  let phi2 := -M2*LC2*p.gravity*Real.sin (q1+q2)
  let rhs1 := tau1 - h1 - phi1
  let rhs2 := tau2 - h2 - phi2
  let denom := (d11 * d22) - (d21 * d12)
  ⟨qd1, qd2, ((rhs1 * d22) - (rhs2 * d12)) / denom, ((d11 * rhs2) - (d21 * rhs1)) / denom⟩

/-- One forward-Euler update `state + dt * qd` with the fixed inner step
`self.dt = 0.001`. -/
noncomputable def eulerStep (s d : Vec4) : Vec4 :=
  ⟨s.x1 + (1/1000) * d.x1, s.x2 + (1/1000) * d.x2,
   s.x3 + (1/1000) * d.x3, s.x4 + (1/1000) * d.x4⟩

/-- `DoublePendulumSimulator.timer_tick(delta_t)` from `doublependulum.py`:
while `delta_t > 0`, compute the control torques, the derivative, one Euler
step of the fixed size `self.dt = 0.001`, and advance `t` by `0.001`,
decrementing `delta_t` by `0.001` each iteration.  `ctrl t dt state` models
`self.control.compute_control(self.t, self.dt, self.state, self.tau)`.
Returns the final `(t, state)`. -/
noncomputable def timer_tick (p : Params) (ctrl : ℝ → ℝ → Vec4 → ℝ × ℝ)
    (t : ℝ) (state : Vec4) (delta_t : ℝ) : ℝ × Vec4 :=
  if h : delta_t ≤ 0 then (t, state)
  else
    timer_tick p ctrl (t + 1/1000)
      (eulerStep state
        (deriv p state (ctrl t (1/1000) state).1 (ctrl t (1/1000) state).2))
      (delta_t - 1/1000)
termination_by (⌈delta_t * 1000⌉).toNat
decreasing_by
  have h0 : (0:ℝ) < delta_t := not_le.mp h
  have h1 : (0:ℤ) < ⌈delta_t * 1000⌉ := Int.ceil_pos.mpr (by positivity)
  have h2 : ⌈(delta_t - 1/1000) * 1000⌉ = ⌈delta_t * 1000⌉ - 1 := by
    rw [show (delta_t - 1/1000) * 1000 = delta_t * 1000 - 1 by ring]
    exact Int.ceil_sub_one _
  omega

/-- A controller that always writes `tau = [0, 0]`. -/
def zero_ctrl : ℝ → ℝ → Vec4 → ℝ × ℝ := fun _ _ _ => (0, 0)

end DoublePendulumSimulator

/-- Modelled from the spec: the dynamics equations displayed in §4.1
("Dynamics equations ... must be reproduced exactly"), producing the
accelerations `(qdd1, qdd2)` by Cramer's rule.  Written from the spec's
formulas, for comparison with the source translation `deriv`. -/
noncomputable def specQdd (L1 LC1 LC2 M1 M2 I1 I2 g q1 q2 qd1 qd2 tau1 tau2 : ℝ) : ℝ × ℝ :=
  let d11 := M1*LC1^2 + M2*(L1^2 + LC2^2 + 2*L1*LC2*Real.cos q2) + I1 + I2
  let d12 := M2*(LC2^2 + L1*LC2*Real.cos q2) + I2
  let d21 := d12
  let d22 := M2*LC2^2 + I2
  let h1 := -M2*L1*LC2*Real.sin q2*qd2^2 - 2*M2*L1*LC2*Real.sin q2*qd2*qd1
  let h2 := M2*L1*LC2*Real.sin q2*qd1^2
  let phi1 := -M2*LC2*g*Real.sin (q1+q2) - (M1*LC1 + M2*L1)*g*Real.sin q1
  let phi2 := -M2*LC2*g*Real.sin (q1+q2)
  let rhs1 := tau1 - h1 - phi1
  let rhs2 := tau2 - h2 - phi2
  let denom := d11*d22 - d21*d12
  ((rhs1*d22 - rhs2*d12)/denom, (d11*rhs2 - d21*rhs1)/denom)

/-- State of the scalar `Path` generator from `path.py`; the fields mirror
`Path.__init__` (gains `k`, `b` and the limits are part of the object state). -/
structure Path where
  q : ℝ
  qd : ℝ
  qdd : ℝ
  q_d : ℝ
  qd_d : ℝ
  t : ℝ
  k : ℝ
  b : ℝ
  qd_max : ℝ
  qdd_max : ℝ

namespace Path

/-- The initial `Path` object built by `Path.__init__`. -/
noncomputable def init : Path :=
  { q := 0, qd := 0, qdd := 0, q_d := 0, qd_d := 0, t := 0
    k := 4 * Real.pi * Real.pi, b := 1.0, qd_max := 3500.0, qdd_max := 35000.0 }

/-- `Path.step(dt)` from `path.py`, translated line by line: compute and clamp
the acceleration, integrate `q`, `qd`, `q_d` and `t`, then clamp the
velocity. -/
def step (s : Path) (dt : ℝ) : Path :=
  let qdd1 := s.k * (s.q_d - s.q) + s.b * (s.qd_d - s.qd)
  let qdd2 := min s.qdd_max (max qdd1 (-s.qdd_max))
  let q1 := s.q + s.qd * dt
  let qd1 := s.qd + qdd2 * dt
  let q_d1 := s.q_d + s.qd_d * dt
  let t1 := s.t + dt
  let qd2 := min s.qd_max (max qd1 (-s.qd_max))
  { s with q := q1, qd := qd2, qdd := qdd2, q_d := q_d1, t := t1 }

/-- `Path.update_for_interval(interval)` from `path.py`: while `interval > 0`,
take a sub-step of size `dt = min(interval, 0.005)` and decrement `interval`
by `dt`. -/
noncomputable def update_for_interval (s : Path) (interval : ℝ) : Path :=
  if h : interval ≤ 0 then s
  else
    update_for_interval (s.step (min interval (1/200))) (interval - min interval (1/200))
termination_by (⌈interval * 200⌉).toNat
decreasing_by
  have h0 : (0:ℝ) < interval := not_le.mp h
  have h1 : (0:ℤ) < ⌈interval * 200⌉ := Int.ceil_pos.mpr (by positivity)
  rcases le_or_lt interval (1/200) with hc | hc
  · have hdt : min interval (1/200) = interval := min_eq_left hc
    rw [hdt]
    simp only [sub_self, zero_mul, Int.ceil_zero, Int.toNat_zero]
    omega
  · have hdt : min interval (1/200) = 1/200 := min_eq_right hc.le
    rw [hdt]
    have h2 : ⌈(interval - 1/200) * 200⌉ = ⌈interval * 200⌉ - 1 := by
      rw [show (interval - 1/200) * 200 = interval * 200 - 1 by ring]
      exact Int.ceil_sub_one _
    omega

end Path

/-- One axis of the vectorized `NPath` generator from `npath.py`, together
with the global fields `t`, `qd_max`, `qdd_max` (the numpy arrays act
componentwise, with no cross-axis coupling, so a single axis is modelled).
`speed` is a float that `set_speed` may set to `np.inf`; it is modelled as
`EReal`. -/
structure NPath where
  q : ℝ
  qd : ℝ
  qdd : ℝ
  q_d : ℝ
  qd_d : ℝ
  q_d_d : ℝ
  speed : EReal
  k : ℝ
  b : ℝ
  t : ℝ
  qd_max : ℝ
  qdd_max : ℝ

namespace NPath

/-- One axis of the `NPath` object built by `NPath.__init__`
(`speed` starts at `np.inf`). -/
noncomputable def init : NPath :=
  { q := 0, qd := 0, qdd := 0, q_d := 0, qd_d := 0, q_d_d := 0, speed := ⊤
    k := 4 * Real.pi * Real.pi, b := 1.0, t := 0
    qd_max := 3500.0, qdd_max := 35000.0 }

/-- `NPath.step(dt)` from `npath.py`, translated componentwise: the same
clamped second-order update as `Path.step` (but without `q_d += qd_d*dt`),
followed by the piecewise-linear reference-trajectory update.
`EReal.toReal` sends `⊤` and `⊥` to `0`, which models
`np.where(np.isinf(self.speed), self.zeros, self.speed)`; for the bounded
step, `min (speed * dt) |q_d_err|` is `|q_d_err|` when `speed = ⊤` and
`dt > 0`, as in the source. -/
noncomputable def step (s : NPath) (dt : ℝ) : NPath :=
  let qdd1 := s.k * (s.q_d - s.q) + s.b * (s.qd_d - s.qd)
  let qdd2 := min s.qdd_max (max qdd1 (-s.qdd_max))
  let q1 := s.q + s.qd * dt
  let qd1 := s.qd + qdd2 * dt
  let t1 := s.t + dt
  let qd2 := min s.qd_max (max qd1 (-s.qd_max))
  let q_d_err := s.q_d_d - s.q_d
  let q_d_sign := Real.sign q_d_err
  let q_d_mag := |q_d_err|
  let d_q_d_max : EReal := s.speed * (dt : EReal)
  let d_q_d := q_d_sign * (min d_q_d_max (q_d_mag : EReal)).toReal
  let q_d1 := s.q_d + d_q_d
  let qd_d1 := q_d_sign * s.speed.toReal
  { s with q := q1, qd := qd2, qdd := qdd2, q_d := q_d1, qd_d := qd_d1, t := t1 }

/-- `NPath.update_for_interval(interval)` from `npath.py`: identical loop to
`Path.update_for_interval`. -/
noncomputable def update_for_interval (s : NPath) (interval : ℝ) : NPath :=
  if h : interval ≤ 0 then s
  else
    update_for_interval (s.step (min interval (1/200))) (interval - min interval (1/200))
termination_by (⌈interval * 200⌉).toNat
decreasing_by
  have h0 : (0:ℝ) < interval := not_le.mp h
  have h1 : (0:ℤ) < ⌈interval * 200⌉ := Int.ceil_pos.mpr (by positivity)
  rcases le_or_lt interval (1/200) with hc | hc
  · have hdt : min interval (1/200) = interval := min_eq_left hc
    rw [hdt]
    simp only [sub_self, zero_mul, Int.ceil_zero, Int.toNat_zero]
    omega
  · have hdt : min interval (1/200) = 1/200 := min_eq_right hc.le
    rw [hdt]
    have h2 : ⌈(interval - 1/200) * 200⌉ = ⌈interval * 200⌉ - 1 := by
      rw [show (interval - 1/200) * 200 = interval * 200 - 1 by ring]
      exact Int.ceil_sub_one _
    omega

/-- The scalar branch of `NPath.set_speed(axis, speed)` from `npath.py`: a
speed less than or equal to zero is stored as `np.inf`. -/
noncomputable def set_speed (s : NPath) (speed : ℝ) : NPath :=
  { s with speed := if speed ≤ 0 then (⊤ : EReal) else (speed : EReal) }

end NPath

/-- The controller attributes relevant to `connect_controller`/`reset`:
its `initial_state` array and whether its `model` back-reference has been
set to the simulator. -/
structure Controller where
  initial_state : Vec4
  model_connected : Bool

/-- The transient state of a `DoublePendulumSimulator` object touched by
`connect_controller` and `reset`. -/
structure Simulator where
  control : Option Controller
  t : ℝ
  state : Vec4
  tau : ℝ × ℝ
  origin : ℝ × ℝ

namespace Simulator

/-- `DoublePendulumSimulator.reset` from `doublependulum.py`: zero `t` and
`origin`, restore `state` from the attached controller's `initial_state`
(a defensive `.copy()`, which value semantics renders as plain equality),
zero `tau`. -/
def reset (sim : Simulator) : Simulator :=
  { sim with
    t := 0
    origin := (0, 0)
    state := match sim.control with
      | some c => c.initial_state
      | none => ⟨0, 0, 0, 0⟩
    tau := (0, 0) }

/-- `DoublePendulumSimulator.connect_controller(controller)` from
`doublependulum.py`: attach the controller, point its `model` at the
simulator, then `reset()`. -/
def connect_controller (sim : Simulator) (c : Controller) : Simulator :=
  reset { sim with control := some { c with model_connected := true } }

end Simulator

namespace DoublePendulumSimulator

/-- `math.atan2(y, x)`, modelled as the argument of the complex number
`x + y*I` (the standard two-argument arctangent; `atan2 0 0 = 0`). -/
noncomputable def atan2 (y x : ℝ) : ℝ := Complex.arg ⟨x, y⟩

/-- `radiussq = np.dot(target, target)` for the body-coordinate target
`(tx, ty)` in `endpointIK`. -/
def radiussq (tx ty : ℝ) : ℝ := tx * tx + ty * ty

/-- `radius = math.sqrt(radiussq)` in `endpointIK`. -/
noncomputable def radius (tx ty : ℝ) : ℝ := Real.sqrt (radiussq tx ty)

/-- The law-of-cosines argument
`(radiussq - l1**2 - l2**2) / (-2 * l1 * l2)` in `endpointIK`. -/
noncomputable def acosarg (l1 l2 tx ty : ℝ) : ℝ :=
  (radiussq tx ty - l1 ^ 2 - l2 ^ 2) / (-2 * l1 * l2)

/-- The `elbow_supplement` branch of `endpointIK`: the law-of-cosines
argument is saturated, yielding `π` below `-1` and `0` above `1`, else
`acos`. -/
noncomputable def elbow_supplement (l1 l2 tx ty : ℝ) : ℝ :=
  if acosarg l1 l2 tx ty < -1 then Real.pi
  else if 1 < acosarg l1 l2 tx ty then 0
  else Real.arccos (acosarg l1 l2 tx ty)

/-- The argument passed to `math.asin` in `endpointIK` when `radius > 0`:
`self.l2 * math.sin(elbow_supplement) / radius`. -/
noncomputable def asinarg (l1 l2 tx ty : ℝ) : ℝ :=
  l2 * Real.sin (elbow_supplement l1 l2 tx ty) / radius tx ty

/-- The `alpha` branch of `endpointIK`: the law-of-sines angle when
`radius > 0`, else `0`. -/
noncomputable def alphaIK (l1 l2 tx ty : ℝ) : ℝ :=
  if 0 < radius tx ty then Real.arcsin (asinarg l1 l2 tx ty) else 0

/-- `DoublePendulumSimulator.endpointIK(target)` from `doublependulum.py`:
translate the target into body coordinates, compute `theta`,
`elbow_supplement` and `alpha`, and return the two joint-angle solutions
`(theta - alpha, π - elbow_supplement)` and
`(theta + alpha, elbow_supplement - π)`. -/
noncomputable def endpointIK (l1 l2 ox oy tx ty : ℝ) : (ℝ × ℝ) × (ℝ × ℝ) :=
  let x := tx - ox
  let y := ty - oy
  let theta := atan2 x (-y)
  let es := elbow_supplement l1 l2 x y
  let a := alphaIK l1 l2 x y
  ((theta - a, Real.pi - es), (theta + a, es - Real.pi))

/-- `math.acos` with its domain check: Python raises `ValueError: math
domain error` outside `[-1, 1]`, modelled as `none`. -/
noncomputable def acos_dom (x : ℝ) : Option ℝ :=
  if -1 ≤ x ∧ x ≤ 1 then some (Real.arccos x) else none

/-- `math.asin` with its domain check, as `acos_dom`. -/
noncomputable def asin_dom (x : ℝ) : Option ℝ :=
  if -1 ≤ x ∧ x ≤ 1 then some (Real.arcsin x) else none

/-- `endpointIK` with the `math.acos` / `math.asin` domain errors made
explicit: `none` exactly where the Python code would raise. -/
noncomputable def endpointIK_checked (l1 l2 ox oy tx ty : ℝ) :
    Option ((ℝ × ℝ) × (ℝ × ℝ)) :=
  let x := tx - ox
  let y := ty - oy
  let theta := atan2 x (-y)
  let ac := acosarg l1 l2 x y
  let esO : Option ℝ :=
    if ac < -1 then some Real.pi
    else if 1 < ac then some 0
    else acos_dom ac
  esO.bind fun es =>
    let aO : Option ℝ :=
      if 0 < radius x y then asin_dom (l2 * Real.sin es / radius x y)
      else some 0
    aO.bind fun a =>
      some ((theta - a, Real.pi - es), (theta + a, es - Real.pi))

/-- `DoublePendulumSimulator.forwardKinematics(q)` from `doublependulum.py`:
the `(elbow, end)` positions for joint angles `(q1, q2)`. -/
noncomputable def forwardKinematics (l1 l2 ox oy q1 q2 : ℝ) : (ℝ × ℝ) × (ℝ × ℝ) :=
  let elbow : ℝ × ℝ := (ox + l1 * Real.sin q1, oy + -(l1 * Real.cos q1))
  let endp : ℝ × ℝ :=
    (elbow.1 + l2 * Real.sin (q1 + q2), elbow.2 + -(l2 * Real.cos (q1 + q2)))
  (elbow, endp)

end DoublePendulumSimulator

/-- Concrete `Path` state used to instantiate hypotheses: a huge position
error with the constructor's limits. -/
noncomputable def pathW : Path :=
  { q := 0, qd := 0, qdd := 0, q_d := 1000000, qd_d := 0, t := 0
    k := 1, b := 1, qd_max := 3500, qdd_max := 35000 }

/-- Concrete `NPath` axis state with a huge position error and the
constructor's limits. -/
noncomputable def npathW : NPath :=
  { q := 0, qd := 0, qdd := 0, q_d := 1000000, qd_d := 0, q_d_d := 0, speed := ⊤
    k := 1, b := 1, t := 0, qd_max := 3500, qdd_max := 35000 }

/-- Concrete `NPath` axis state with a pending reference error
(`q_d = 3`, user target `q_d_d = 7`). -/
noncomputable def npathW9 : NPath :=
  { q := 0, qd := 0, qdd := 0, q_d := 3, qd_d := 2, q_d_d := 7, speed := (1 : ℝ)
    k := 1, b := 1, t := 0, qd_max := 3500, qdd_max := 35000 }

/-- `Real.sign x * |x| = x`, matching `np.sign(err) * np.abs(err) = err`. -/
lemma real_sign_mul_abs (x : ℝ) : Real.sign x * |x| = x := by
  rcases lt_trichotomy x 0 with h | h | h
  · rw [Real.sign_of_neg h, abs_of_neg h]; ring
  · simp [h, Real.sign_zero]
  · rw [Real.sign_of_pos h, abs_of_pos h, one_mul]

/-- The two-sided clamp `min m (max x (-m))` stays within `[-m, m]` whenever
the limit `m` is nonnegative. -/
lemma abs_clamp_le (m x : ℝ) (hm : 0 ≤ m) : |min m (max x (-m))| ≤ m := by
  rw [abs_le]
  exact ⟨le_min (by linarith) (le_max_right _ _), min_le_left _ _⟩

/-- C2: `deriv` returns `[qd1, qd2, qdd1, qdd2]` where the accelerations are
exactly the spec's mass-matrix/Coriolis/gravity equations solved by Cramer's
rule. -/
theorem claim_C2 (p : DoublePendulumSimulator.Params) (state : Vec4) (tau1 tau2 : ℝ) :
    DoublePendulumSimulator.deriv p state tau1 tau2 =
      ⟨state.x3, state.x4,
       (specQdd p.l1 p.lc1 p.lc2 p.m1 p.m2 p.I1 p.I2 p.gravity
          state.x1 state.x2 state.x3 state.x4 tau1 tau2).1,
       (specQdd p.l1 p.lc1 p.lc2 p.m1 p.m2 p.I1 p.I2 p.gravity
          state.x1 state.x2 state.x3 state.x4 tau1 tau2).2⟩ := by
  simp only [DoublePendulumSimulator.deriv, specQdd]
  rw [Vec4.mk.injEq]
  refine ⟨rfl, rfl, by ring, by ring⟩

/-- C6: after one `step(dt)` of the scalar `Path` or of an `NPath` axis, the
clamps hold: `|qd| ≤ qd_max` and `|qdd| ≤ qdd_max`, for every prior state
(however large the position error) with nonnegative limits — hence the bound
is an invariant preserved by every step. -/
theorem claim_C6 (s : Path) (ns : NPath) (dt dt' : ℝ)
    (hdt : 0 < dt) (hdt' : 0 < dt')
    (h1 : 0 ≤ s.qd_max) (h2 : 0 ≤ s.qdd_max)
    (h3 : 0 ≤ ns.qd_max) (h4 : 0 ≤ ns.qdd_max) :
    (|(s.step dt).qd| ≤ s.qd_max ∧ |(s.step dt).qdd| ≤ s.qdd_max)
    ∧ (|(ns.step dt').qd| ≤ ns.qd_max ∧ |(ns.step dt').qdd| ≤ ns.qdd_max) :=
  ⟨⟨abs_clamp_le _ _ h1, abs_clamp_le _ _ h2⟩,
   ⟨abs_clamp_le _ _ h3, abs_clamp_le _ _ h4⟩⟩

theorem claim_C6_witness :
    (|(Path.step pathW 1).qd| ≤ 3500 ∧ |(Path.step pathW 1).qdd| ≤ 35000)
    ∧ (|(NPath.step npathW 1).qd| ≤ 3500 ∧ |(NPath.step npathW 1).qdd| ≤ 35000) := by
  simpa [pathW, npathW] using
    claim_C6 pathW npathW 1 1 (by norm_num) (by norm_num)
      (by simp [pathW]) (by simp [pathW]) (by simp [npathW]) (by simp [npathW])

/-- C7 fails as stated: a `Path` state with zero tracking error
(`q = q_d = 0`, `qd = qd_d = 1`) but nonzero velocity is changed by
`step(1)`: `q` moves from `0` to `1`. -/
theorem claim_C7_counterexample :
    (Path.step
      { q := 0, qd := 1, qdd := 0, q_d := 0, qd_d := 1, t := 0
        k := 1, b := 1, qd_max := 3500, qdd_max := 35000 } 1).q = 1
    ∧ (1 : ℝ) ≠ 0 := by
  constructor
  · simp [Path.step]
  · norm_num

/-- C7 (amended): for a `Path` state with zero tracking error that is also at
rest (`qd = 0`), and the path generator's nonnegative limits, `step(dt)`
computes `qdd = 0` and leaves `q`, `qd`, `q_d`, `qd_d` unchanged. -/
theorem claim_C7 (s : Path) (dt : ℝ)
    (hq : s.q = s.q_d) (hqd : s.qd = s.qd_d) (hrest : s.qd = 0)
    (h1 : 0 ≤ s.qd_max) (h2 : 0 ≤ s.qdd_max) (hdt : 0 < dt) :
    (s.step dt).qdd = 0 ∧ (s.step dt).q = s.q ∧ (s.step dt).qd = s.qd
    ∧ (s.step dt).q_d = s.q_d ∧ (s.step dt).qd_d = s.qd_d := by
  have hqd_d : s.qd_d = 0 := hqd ▸ hrest
  have e0 : s.q_d - s.q = 0 := by rw [hq]; ring
  have e2 : s.qd_d - s.qd = 0 := by rw [hqd]; ring
  have eclamp : min s.qdd_max (max (0:ℝ) (-s.qdd_max)) = 0 := by
    rw [max_eq_left (by linarith), min_eq_right h2]
  have eclamp' : min s.qd_max (max (0:ℝ) (-s.qd_max)) = 0 := by
    rw [max_eq_left (by linarith), min_eq_right h1]
  refine ⟨?_, ?_, ?_, ?_, ?_⟩ <;>
    simp [Path.step, e0, e2, eclamp, eclamp', hrest, hqd_d]

theorem claim_C7_witness :
    (Path.step
      { q := 5, qd := 0, qdd := 3, q_d := 5, qd_d := 0, t := 2
        k := 7, b := 2, qd_max := 3500, qdd_max := 35000 } (1/2)).qdd = 0
    ∧ (Path.step
      { q := 5, qd := 0, qdd := 3, q_d := 5, qd_d := 0, t := 2
        k := 7, b := 2, qd_max := 3500, qdd_max := 35000 } (1/2)).q = 5 := by
  have h := claim_C7
    { q := 5, qd := 0, qdd := 3, q_d := 5, qd_d := 0, t := 2
      k := 7, b := 2, qd_max := 3500, qdd_max := 35000 } (1/2)
    rfl rfl rfl (by norm_num) (by norm_num) (by norm_num)
  exact ⟨h.1, h.2.1⟩

/-- C8 fails as stated: the scalar `Path.step` does mutate the target
position `q_d` — with `q_d = 3`, `qd_d = 2`, one `step(1)` moves `q_d`
to `5`. -/
theorem claim_C8_counterexample :
    (Path.step
      { q := 0, qd := 0, qdd := 0, q_d := 3, qd_d := 2, t := 0
        k := 0, b := 0, qd_max := 3500, qdd_max := 35000 } 1).q_d = 5
    ∧ (5 : ℝ) ≠ 3 := by
  constructor
  · simp [Path.step]; norm_num
  · norm_num

/-- C8 (amended): `Path.step(dt)` updates `q`, `qd`, `qdd`, `t` by the spec's
update equations and additionally integrates the target position
`q_d += qd_d * dt`; only the target velocity `qd_d` (and the gains and
limits) is left unchanged. -/
theorem claim_C8 (s : Path) (dt : ℝ) :
    (s.step dt).q = s.q + s.qd * dt
    ∧ (s.step dt).qdd
        = min s.qdd_max (max (s.k * (s.q_d - s.q) + s.b * (s.qd_d - s.qd)) (-s.qdd_max))
    ∧ (s.step dt).qd
        = min s.qd_max (max (s.qd + (s.step dt).qdd * dt) (-s.qd_max))
    ∧ (s.step dt).t = s.t + dt
    ∧ (s.step dt).q_d = s.q_d + s.qd_d * dt
    ∧ (s.step dt).qd_d = s.qd_d
    ∧ (s.step dt).k = s.k ∧ (s.step dt).b = s.b
    ∧ (s.step dt).qd_max = s.qd_max ∧ (s.step dt).qdd_max = s.qdd_max := by
  refine ⟨rfl, rfl, rfl, rfl, rfl, rfl, rfl, rfl, rfl, rfl⟩

/-- C9: `NPath.set_speed` stores `+∞` for every non-positive requested speed,
and for an axis whose stored speed is infinite, one `step` of any positive
duration jumps the reference position `q_d` to the user target `q_d_d` and
sets the reference velocity `qd_d` to `0` (never `±∞`). -/
theorem claim_C9 (s : NPath) (sp dt : ℝ) (hsp : sp ≤ 0) (hdt : 0 < dt) :
    (s.set_speed sp).speed = ⊤
    ∧ ((s.set_speed sp).step dt).q_d = s.q_d_d
    ∧ ((s.set_speed sp).step dt).qd_d = 0 := by
  have hs : (s.set_speed sp).speed = ⊤ := by simp [NPath.set_speed, hsp]
  refine ⟨hs, ?_, ?_⟩
  · show (s.set_speed sp).q_d
        + Real.sign ((s.set_speed sp).q_d_d - (s.set_speed sp).q_d)
          * (min ((s.set_speed sp).speed * (dt : EReal))
              ((|(s.set_speed sp).q_d_d - (s.set_speed sp).q_d| : ℝ) : EReal)).toReal
      = s.q_d_d
    rw [hs, EReal.top_mul_coe_of_pos hdt, min_eq_right le_top, EReal.toReal_coe]
    show s.q_d + Real.sign (s.q_d_d - s.q_d) * |s.q_d_d - s.q_d| = s.q_d_d
    rw [real_sign_mul_abs]
    ring
  · show Real.sign ((s.set_speed sp).q_d_d - (s.set_speed sp).q_d)
        * ((s.set_speed sp).speed).toReal = 0
    rw [hs, EReal.toReal_top, mul_zero]

theorem claim_C9_witness :
    (NPath.set_speed npathW9 (-2)).speed = ⊤
    ∧ ((NPath.set_speed npathW9 (-2)).step 1).q_d = 7
    ∧ ((NPath.set_speed npathW9 (-2)).step 1).qd_d = 0 := by
  simpa [npathW9] using claim_C9 npathW9 (-2) 1 (by norm_num) (by norm_num)

/-- The clock component of `timer_tick` advances by exactly `0.001` per loop
iteration, and the loop runs `⌈delta_t * 1000⌉` times (`0` when
`delta_t ≤ 0`), independently of the controller and the state. -/
lemma timer_tick_fst (p : DoublePendulumSimulator.Params)
    (ctrl : ℝ → ℝ → Vec4 → ℝ × ℝ) :
    ∀ (n : ℕ) (delta_t t : ℝ) (s : Vec4), (⌈delta_t * 1000⌉).toNat = n →
      (DoublePendulumSimulator.timer_tick p ctrl t s delta_t).1
        = t + (1/1000) * n := by
  intro n
  induction n using Nat.strong_induction_on with
  | _ n ih =>
    intro delta_t t s hn
    rw [DoublePendulumSimulator.timer_tick]
    by_cases h : delta_t ≤ 0
    · rw [dif_pos h]
      have h1 : ⌈delta_t * 1000⌉ ≤ 0 := Int.ceil_le.mpr (by push_cast; nlinarith)
      have hn0 : n = 0 := by omega
      subst hn0
      simp
    · rw [dif_neg h]
      have h0 : (0:ℝ) < delta_t := not_le.mp h
      have h1 : (0:ℤ) < ⌈delta_t * 1000⌉ := Int.ceil_pos.mpr (by positivity)
      have h2 : ⌈(delta_t - 1/1000) * 1000⌉ = ⌈delta_t * 1000⌉ - 1 := by
        rw [show (delta_t - 1/1000) * 1000 = delta_t * 1000 - 1 by ring]
        exact Int.ceil_sub_one _
      have hn1 : 1 ≤ n := by omega
      have hm : (⌈(delta_t - 1/1000) * 1000⌉).toNat = n - 1 := by omega
      rw [ih (n-1) (by omega) (delta_t - 1/1000) (t + 1/1000) _ hm]
      have hcast : ((n - 1 : ℕ) : ℝ) = (n : ℝ) - 1 := by
        push_cast [Nat.cast_sub hn1]
        ring
      rw [hcast]
      ring

/-- The clock component of `Path.update_for_interval` advances by exactly the
requested interval (clipped at zero): the final sub-step has the size of the
remainder. -/
lemma path_update_t :
    ∀ (n : ℕ) (interval : ℝ) (s : Path), (⌈interval * 200⌉).toNat = n →
      (s.update_for_interval interval).t = s.t + max 0 interval := by
  intro n
  induction n using Nat.strong_induction_on with
  | _ n ih =>
    intro interval s hn
    rw [Path.update_for_interval]
    by_cases h : interval ≤ 0
    · rw [dif_pos h, max_eq_left h, add_zero]
    · rw [dif_neg h]
      have h0 : (0:ℝ) < interval := not_le.mp h
      have h1 : (0:ℤ) < ⌈interval * 200⌉ := Int.ceil_pos.mpr (by positivity)
      have hn1 : 1 ≤ n := by omega
      rcases le_or_lt interval (1/200) with hc | hc
      · rw [min_eq_left hc]
        have hz : (⌈(interval - interval) * 200⌉).toNat = 0 := by
          simp [sub_self]
        rw [ih 0 (by omega) (interval - interval) _ hz]
        have : (Path.step s interval).t = s.t + interval := rfl
        rw [this, sub_self, max_self 0,
          max_eq_right h0.le]
        ring
      · rw [min_eq_right hc.le]
        have h2 : ⌈(interval - 1/200) * 200⌉ = ⌈interval * 200⌉ - 1 := by
          rw [show (interval - 1/200) * 200 = interval * 200 - 1 by ring]
          exact Int.ceil_sub_one _
        have hm : (⌈(interval - 1/200) * 200⌉).toNat = n - 1 := by omega
        rw [ih (n-1) (by omega) (interval - 1/200) _ hm]
        have hstep : (Path.step s (1/200)).t = s.t + 1/200 := rfl
        rw [hstep, max_eq_right (by linarith), max_eq_right h0.le]
        ring

/-- As `path_update_t`, for `NPath.update_for_interval`. -/
lemma npath_update_t :
    ∀ (n : ℕ) (interval : ℝ) (s : NPath), (⌈interval * 200⌉).toNat = n →
      (s.update_for_interval interval).t = s.t + max 0 interval := by
  intro n
  induction n using Nat.strong_induction_on with
  | _ n ih =>
    intro interval s hn
    rw [NPath.update_for_interval]
    by_cases h : interval ≤ 0
    · rw [dif_pos h, max_eq_left h, add_zero]
    · rw [dif_neg h]
      have h0 : (0:ℝ) < interval := not_le.mp h
      have h1 : (0:ℤ) < ⌈interval * 200⌉ := Int.ceil_pos.mpr (by positivity)
      have hn1 : 1 ≤ n := by omega
      rcases le_or_lt interval (1/200) with hc | hc
      · rw [min_eq_left hc]
        have hz : (⌈(interval - interval) * 200⌉).toNat = 0 := by
          simp [sub_self]
        rw [ih 0 (by omega) (interval - interval) _ hz]
        have : (NPath.step s interval).t = s.t + interval := rfl
        rw [this, sub_self, max_self 0,
          max_eq_right h0.le]
        ring
      · rw [min_eq_right hc.le]
        have h2 : ⌈(interval - 1/200) * 200⌉ = ⌈interval * 200⌉ - 1 := by
          rw [show (interval - 1/200) * 200 = interval * 200 - 1 by ring]
          exact Int.ceil_sub_one _
        have hm : (⌈(interval - 1/200) * 200⌉).toNat = n - 1 := by omega
        rw [ih (n-1) (by omega) (interval - 1/200) _ hm]
        have hstep : (NPath.step s (1/200)).t = s.t + 1/200 := rfl
        rw [hstep, max_eq_right (by linarith), max_eq_right h0.le]
        ring

/-- C1 fails as stated: `timer_tick(0.0015)` runs two full `0.001` steps and
advances simulated time by `0.002 > 0.0015` — the remainder is not dropped,
it is rounded up to a whole step; and `Path.update_for_interval(0.007)`
advances time by exactly `0.007`, not by the single whole inner step
`0.005` that truncation would give. -/
theorem claim_C1_counterexample :
    (DoublePendulumSimulator.timer_tick
        DoublePendulumSimulator.default_dynamic_parameters
        DoublePendulumSimulator.zero_ctrl 0 ⟨0, 0, 0, 0⟩ (3/2000)).1 = 2/1000
    ∧ ¬ ((2:ℝ)/1000 ≤ 3/2000)
    ∧ (Path.update_for_interval Path.init (7/1000)).t = 7/1000
    ∧ (7:ℝ)/1000 ≠ 5/1000 := by
  have hceil : ⌈(3/2000 : ℝ) * 1000⌉ = 2 := by
    rw [Int.ceil_eq_iff]
    constructor <;> norm_num
  have hceil2 : ⌈(7/1000 : ℝ) * 200⌉ = 2 := by
    rw [Int.ceil_eq_iff]
    constructor <;> norm_num
  refine ⟨?_, by norm_num, ?_, by norm_num⟩
  · rw [timer_tick_fst _ _ ((⌈(3/2000 : ℝ) * 1000⌉).toNat) _ _ _ rfl, hceil]
    rw [show Int.toNat 2 = 2 from rfl]
    norm_num
  · rw [path_update_t ((⌈(7/1000 : ℝ) * 200⌉).toNat) _ _ rfl]
    have : (Path.init).t = 0 := rfl
    rw [this, max_eq_right (by norm_num)]
    norm_num

/-- C1 (amended): for every positive interval, `timer_tick` runs exactly
`⌈delta_t / 0.001⌉` full fixed inner steps, so the simulated time advanced is
at least the requested interval and less than one inner step more (it rounds
the interval up, never truncates); `Path.update_for_interval` and
`NPath.update_for_interval` advance the model by exactly the requested
interval, the final sub-step being the remainder below `0.005`. -/
theorem claim_C1_amended (p : DoublePendulumSimulator.Params)
    (ctrl : ℝ → ℝ → Vec4 → ℝ × ℝ) (t : ℝ) (s : Vec4)
    (ps : Path) (ns : NPath) (delta_t interval interval' : ℝ)
    (hd : 0 < delta_t) (hi : 0 < interval) (hi' : 0 < interval') :
    ((DoublePendulumSimulator.timer_tick p ctrl t s delta_t).1
        = t + (1/1000) * (⌈delta_t * 1000⌉ : ℤ)
      ∧ delta_t ≤ (1/1000) * (⌈delta_t * 1000⌉ : ℤ)
      ∧ (1/1000) * ((⌈delta_t * 1000⌉ : ℤ) : ℝ) < delta_t + 1/1000)
    ∧ (ps.update_for_interval interval).t = ps.t + interval
    ∧ (ns.update_for_interval interval').t = ns.t + interval' := by
  have h1 : (0:ℤ) < ⌈delta_t * 1000⌉ := Int.ceil_pos.mpr (by positivity)
  refine ⟨⟨?_, ?_, ?_⟩, ?_, ?_⟩
  · rw [timer_tick_fst p ctrl ((⌈delta_t * 1000⌉).toNat) _ _ _ rfl]
    congr 1
    congr 1
    exact_mod_cast Int.toNat_of_nonneg h1.le
  · have := Int.le_ceil (delta_t * 1000)
    linarith
  · have := Int.ceil_lt_add_one (delta_t * 1000)
    linarith
  · rw [path_update_t ((⌈interval * 200⌉).toNat) _ _ rfl, max_eq_right hi.le]
  · rw [npath_update_t ((⌈interval' * 200⌉).toNat) _ _ rfl, max_eq_right hi'.le]

theorem claim_C1_witness :
    (DoublePendulumSimulator.timer_tick
        DoublePendulumSimulator.default_dynamic_parameters
        DoublePendulumSimulator.zero_ctrl 0 ⟨0, 0, 0, 0⟩ (1/1000)).1 = 1/1000
    ∧ (Path.update_for_interval Path.init (1/200)).t = 1/200
    ∧ (NPath.update_for_interval NPath.init (1/200)).t = 1/200 := by
  obtain ⟨⟨h1, -, -⟩, h2, h3⟩ :=
    claim_C1_amended DoublePendulumSimulator.default_dynamic_parameters
      DoublePendulumSimulator.zero_ctrl 0 ⟨0, 0, 0, 0⟩ Path.init NPath.init
      (1/1000) (1/200) (1/200) (by norm_num) (by norm_num) (by norm_num)
  have hc : ⌈(1/1000 : ℝ) * 1000⌉ = 1 := by
    rw [Int.ceil_eq_iff]
    constructor <;> norm_num
  refine ⟨?_, ?_, ?_⟩
  · rw [h1, hc]
    norm_num
  · rw [h2, show Path.init.t = 0 from rfl, zero_add]
  · rw [h3, show NPath.init.t = 0 from rfl, zero_add]

/-- At the hanging state `[0,0,0,0]` with zero torque and the default
parameters, the dynamics derivative vanishes. -/
lemma deriv_default_zero :
    DoublePendulumSimulator.deriv DoublePendulumSimulator.default_dynamic_parameters
      ⟨0, 0, 0, 0⟩ 0 0 = ⟨0, 0, 0, 0⟩ := by
  rw [DoublePendulumSimulator.deriv, Vec4.mk.injEq]
  norm_num [Real.sin_zero]

/-- The forward-Euler update does not move a state with zero derivative. -/
lemma eulerStep_zero :
    DoublePendulumSimulator.eulerStep ⟨0, 0, 0, 0⟩ ⟨0, 0, 0, 0⟩ = (⟨0, 0, 0, 0⟩ : Vec4) := by
  rw [DoublePendulumSimulator.eulerStep, Vec4.mk.injEq]
  norm_num

/-- The state component of `timer_tick` started at `[0,0,0,0]` under the
zero controller stays `[0,0,0,0]`, whatever the interval. -/
lemma timer_tick_zero_state :
    ∀ (n : ℕ) (delta_t t : ℝ), (⌈delta_t * 1000⌉).toNat = n →
      (DoublePendulumSimulator.timer_tick
          DoublePendulumSimulator.default_dynamic_parameters
          DoublePendulumSimulator.zero_ctrl t ⟨0, 0, 0, 0⟩ delta_t).2
        = (⟨0, 0, 0, 0⟩ : Vec4) := by
  intro n
  induction n using Nat.strong_induction_on with
  | _ n ih =>
    intro delta_t t hn
    rw [DoublePendulumSimulator.timer_tick]
    by_cases h : delta_t ≤ 0
    · rw [dif_pos h]
    · rw [dif_neg h]
      have h0 : (0:ℝ) < delta_t := not_le.mp h
      have h1 : (0:ℤ) < ⌈delta_t * 1000⌉ := Int.ceil_pos.mpr (by positivity)
      have h2 : ⌈(delta_t - 1/1000) * 1000⌉ = ⌈delta_t * 1000⌉ - 1 := by
        rw [show (delta_t - 1/1000) * 1000 = delta_t * 1000 - 1 by ring]
        exact Int.ceil_sub_one _
      have hz : DoublePendulumSimulator.eulerStep ⟨0, 0, 0, 0⟩
          (DoublePendulumSimulator.deriv
            DoublePendulumSimulator.default_dynamic_parameters ⟨0, 0, 0, 0⟩
            (DoublePendulumSimulator.zero_ctrl t (1/1000) ⟨0, 0, 0, 0⟩).1
            (DoublePendulumSimulator.zero_ctrl t (1/1000) ⟨0, 0, 0, 0⟩).2)
          = (⟨0, 0, 0, 0⟩ : Vec4) := by
        rw [show (DoublePendulumSimulator.zero_ctrl t (1/1000) ⟨0, 0, 0, 0⟩).1 = 0 from rfl,
          show (DoublePendulumSimulator.zero_ctrl t (1/1000) ⟨0, 0, 0, 0⟩).2 = 0 from rfl,
          deriv_default_zero, eulerStep_zero]
      rw [hz]
      exact ih ((⌈(delta_t - 1/1000) * 1000⌉).toNat) (by omega) _ _ rfl

/-- C5: with the default dynamic parameters, a controller that always writes
`tau = [0,0]`, and the hanging initial state `[0,0,0,0]`, the state is a
fixed point of `timer_tick(delta_t)` for every `delta_t`. -/
theorem claim_C5 (delta_t : ℝ) :
    (DoublePendulumSimulator.timer_tick
        DoublePendulumSimulator.default_dynamic_parameters
        DoublePendulumSimulator.zero_ctrl 0 ⟨0, 0, 0, 0⟩ delta_t).2
      = (⟨0, 0, 0, 0⟩ : Vec4) :=
  timer_tick_zero_state ((⌈delta_t * 1000⌉).toNat) delta_t 0 rfl

namespace DoublePendulumSimulator

lemma radiussq_nonneg (tx ty : ℝ) : 0 ≤ radiussq tx ty := by
  rw [radiussq]
  nlinarith [sq_nonneg tx, sq_nonneg ty]

lemma radius_nonneg (tx ty : ℝ) : 0 ≤ radius tx ty := Real.sqrt_nonneg _

lemma radius_sq (tx ty : ℝ) : radius tx ty ^ 2 = radiussq tx ty := by
  rw [radius, Real.sq_sqrt (radiussq_nonneg tx ty)]

/-- The law-of-cosines argument rewritten with a positive denominator. -/
lemma acosarg_alt (l1 l2 tx ty : ℝ) (h1 : l1 ≠ 0) (h2 : l2 ≠ 0) :
    acosarg l1 l2 tx ty = (l1^2 + l2^2 - radiussq tx ty) / (2*l1*l2) := by
  rw [acosarg]
  field_simp
  ring

/-- Targets beyond the outer workspace boundary saturate the elbow
supplement to `π`. -/
lemma elbow_supplement_of_far (l1 l2 tx ty : ℝ) (h1 : 0 < l1) (h2 : 0 < l2)
    (h : l1 + l2 < radius tx ty) : elbow_supplement l1 l2 tx ty = Real.pi := by
  have hrsq : (l1 + l2)^2 < radiussq tx ty := by
    rw [← radius_sq]
    have h0 : (0:ℝ) ≤ l1 + l2 := by linarith
    nlinarith [radius_nonneg tx ty]
  have hlt : acosarg l1 l2 tx ty < -1 := by
    rw [acosarg_alt l1 l2 tx ty h1.ne.symm h2.ne.symm, div_lt_iff (by positivity)]
    nlinarith
  rw [elbow_supplement, if_pos hlt]

/-- Targets inside the inner workspace boundary saturate the elbow
supplement to `0`. -/
lemma elbow_supplement_of_near (l1 l2 tx ty : ℝ) (h1 : 0 < l1) (h2 : 0 < l2)
    (h : radius tx ty < |l1 - l2|) : elbow_supplement l1 l2 tx ty = 0 := by
  have hrsq : radiussq tx ty < (l1 - l2)^2 := by
    rw [← radius_sq, ← sq_abs (l1 - l2)]
    nlinarith [radius_nonneg tx ty, abs_nonneg (l1 - l2)]
  have hgt : 1 < acosarg l1 l2 tx ty := by
    rw [acosarg_alt l1 l2 tx ty h1.ne.symm h2.ne.symm, lt_div_iff (by positivity)]
    nlinarith
  rw [elbow_supplement, if_neg (by linarith), if_pos hgt]

lemma sin_elbow_nonneg (l1 l2 tx ty : ℝ) :
    0 ≤ Real.sin (elbow_supplement l1 l2 tx ty) := by
  rw [elbow_supplement]
  split_ifs with h h2
  · rw [Real.sin_pi]
  · rw [Real.sin_zero]
  · rw [Real.sin_arccos]
    exact Real.sqrt_nonneg _

/-- In the `acos` branch (law-of-cosines argument within `[-1,1]`), the
law-of-sines numerator obeys
`(l2 sin E)^2 = radiussq - ((l1^2 - l2^2 + radiussq)/(2 l1))^2`. -/
lemma l2_sin_elbow_sq (l1 l2 tx ty : ℝ) (h1 : 0 < l1) (h2 : 0 < l2)
    (hlo : -1 ≤ acosarg l1 l2 tx ty) (hhi : acosarg l1 l2 tx ty ≤ 1) :
    (l2 * Real.sin (elbow_supplement l1 l2 tx ty))^2
      = radiussq tx ty - ((l1^2 - l2^2 + radiussq tx ty)/(2*l1))^2 := by
  have hE : elbow_supplement l1 l2 tx ty = Real.arccos (acosarg l1 l2 tx ty) := by
    rw [elbow_supplement, if_neg (by linarith), if_neg (by linarith)]
  have hs2 : Real.sin (elbow_supplement l1 l2 tx ty) ^ 2
      = 1 - acosarg l1 l2 tx ty ^ 2 := by
    rw [hE, Real.sin_arccos, Real.sq_sqrt (by nlinarith)]
  rw [mul_pow, hs2, acosarg]
  rw [radiussq] at *
  field_simp
  ring

/-- For every target, the `asin` argument of `endpointIK` lies in `[0, 1]`
(given positive link lengths). -/
lemma asinarg_mem (l1 l2 tx ty : ℝ) (h1 : 0 < l1) (h2 : 0 < l2) :
    0 ≤ asinarg l1 l2 tx ty ∧ asinarg l1 l2 tx ty ≤ 1 := by
  have hrn : 0 ≤ radius tx ty := radius_nonneg tx ty
  have hnum : 0 ≤ l2 * Real.sin (elbow_supplement l1 l2 tx ty) :=
    mul_nonneg h2.le (sin_elbow_nonneg l1 l2 tx ty)
  constructor
  · rw [asinarg]
    positivity
  · rcases eq_or_lt_of_le hrn with hr0 | hr0
    · rw [asinarg, ← hr0, div_zero]
      norm_num
    · rw [asinarg, div_le_one hr0]
      by_cases hlo : acosarg l1 l2 tx ty < -1
      · rw [elbow_supplement, if_pos hlo, Real.sin_pi, mul_zero]
        exact hrn
      · by_cases hhi : 1 < acosarg l1 l2 tx ty
        · rw [elbow_supplement, if_neg hlo, if_pos hhi, Real.sin_zero, mul_zero]
          exact hrn
        · have hkey := l2_sin_elbow_sq l1 l2 tx ty h1 h2 (by linarith) (by linarith)
          have hr2 : radius tx ty ^ 2 = radiussq tx ty := radius_sq tx ty
          nlinarith [sq_nonneg ((l1^2 - l2^2 + radiussq tx ty)/(2*l1)),
            sq_nonneg (l2 * Real.sin (elbow_supplement l1 l2 tx ty) - radius tx ty),
            sq_nonneg (l2 * Real.sin (elbow_supplement l1 l2 tx ty) + radius tx ty)]

/-- The saturating `elbow_supplement` branch of `endpointIK_checked` always
succeeds and computes `elbow_supplement`. -/
lemma esO_eq (l1 l2 tx ty : ℝ) :
    (if acosarg l1 l2 tx ty < -1 then some Real.pi
     else if 1 < acosarg l1 l2 tx ty then some 0
     else acos_dom (acosarg l1 l2 tx ty)) = some (elbow_supplement l1 l2 tx ty) := by
  rw [elbow_supplement]
  split_ifs with h h2
  · rfl
  · rfl
  · rw [acos_dom, if_pos ⟨by linarith, by linarith⟩]

end DoublePendulumSimulator

/-- C4: `endpointIK` never hits a `math.acos`/`math.asin` domain error for
any target of nonzero radius (with positive link lengths): the
law-of-cosines argument is saturated before `acos`, the `asin` argument
stays in `[-1, 1]`, `endpointIK_checked` returns exactly the (deterministic)
`endpointIK` value, and for unreachable targets the elbow supplement is
clamped to exactly `π` (radius beyond `l1+l2`) or `0` (radius inside
`|l1-l2|`). -/
theorem claim_C4 (l1 l2 ox oy tx ty : ℝ) (h1 : 0 < l1) (h2 : 0 < l2)
    (hr : DoublePendulumSimulator.radius (tx - ox) (ty - oy) ≠ 0) :
    (-1 ≤ DoublePendulumSimulator.asinarg l1 l2 (tx - ox) (ty - oy)
      ∧ DoublePendulumSimulator.asinarg l1 l2 (tx - ox) (ty - oy) ≤ 1)
    ∧ (DoublePendulumSimulator.endpointIK_checked l1 l2 ox oy tx ty).isSome
    ∧ DoublePendulumSimulator.endpointIK_checked l1 l2 ox oy tx ty
        = some (DoublePendulumSimulator.endpointIK l1 l2 ox oy tx ty)
    ∧ (l1 + l2 < DoublePendulumSimulator.radius (tx - ox) (ty - oy) →
        DoublePendulumSimulator.elbow_supplement l1 l2 (tx - ox) (ty - oy) = Real.pi)
    ∧ (DoublePendulumSimulator.radius (tx - ox) (ty - oy) < |l1 - l2| →
        DoublePendulumSimulator.elbow_supplement l1 l2 (tx - ox) (ty - oy) = 0) := by
  obtain ⟨ha0, ha1⟩ := DoublePendulumSimulator.asinarg_mem l1 l2 (tx - ox) (ty - oy) h1 h2
  have hrpos : 0 < DoublePendulumSimulator.radius (tx - ox) (ty - oy) :=
    lt_of_le_of_ne (DoublePendulumSimulator.radius_nonneg _ _) (Ne.symm hr)
  have hsome : DoublePendulumSimulator.endpointIK_checked l1 l2 ox oy tx ty
      = some (DoublePendulumSimulator.endpointIK l1 l2 ox oy tx ty) := by
    rw [DoublePendulumSimulator.endpointIK_checked, DoublePendulumSimulator.endpointIK]
    simp only [DoublePendulumSimulator.esO_eq, Option.some_bind]
    rw [if_pos hrpos]
    have harg : l2 * Real.sin (DoublePendulumSimulator.elbow_supplement l1 l2 (tx - ox) (ty - oy))
        / DoublePendulumSimulator.radius (tx - ox) (ty - oy)
        = DoublePendulumSimulator.asinarg l1 l2 (tx - ox) (ty - oy) := rfl
    rw [harg, DoublePendulumSimulator.asin_dom,
      if_pos ⟨le_trans (by norm_num) ha0, ha1⟩, Option.some_bind,
      DoublePendulumSimulator.alphaIK, if_pos hrpos]
  refine ⟨⟨by linarith, ha1⟩, ?_, hsome, ?_, ?_⟩
  · rw [hsome]
    rfl
  · exact DoublePendulumSimulator.elbow_supplement_of_far l1 l2 _ _ h1 h2
  · exact DoublePendulumSimulator.elbow_supplement_of_near l1 l2 _ _ h1 h2

theorem claim_C4_witness :
    (-1 ≤ DoublePendulumSimulator.asinarg 1 1 ((3:ℝ) - 0) ((0:ℝ) - 0)
      ∧ DoublePendulumSimulator.asinarg 1 1 ((3:ℝ) - 0) ((0:ℝ) - 0) ≤ 1)
    ∧ (DoublePendulumSimulator.endpointIK_checked 1 1 0 0 (3:ℝ) (0:ℝ)).isSome
    ∧ DoublePendulumSimulator.endpointIK_checked 1 1 0 0 (3:ℝ) (0:ℝ)
        = some (DoublePendulumSimulator.endpointIK 1 1 0 0 (3:ℝ) (0:ℝ))
    ∧ ((1:ℝ) + 1 < DoublePendulumSimulator.radius ((3:ℝ) - 0) ((0:ℝ) - 0) →
        DoublePendulumSimulator.elbow_supplement 1 1 ((3:ℝ) - 0) ((0:ℝ) - 0) = Real.pi)
    ∧ (DoublePendulumSimulator.radius ((3:ℝ) - 0) ((0:ℝ) - 0) < |(1:ℝ) - 1| →
        DoublePendulumSimulator.elbow_supplement 1 1 ((3:ℝ) - 0) ((0:ℝ) - 0) = 0) := by
  apply claim_C4 1 1 0 0 3 0 (by norm_num) (by norm_num)
  have h9 : DoublePendulumSimulator.radiussq ((3:ℝ) - 0) ((0:ℝ) - 0) = 9 := by
    rw [DoublePendulumSimulator.radiussq]
    norm_num
  rw [DoublePendulumSimulator.radius, h9,
    show (9:ℝ) = 3^2 by norm_num, Real.sqrt_sq (by norm_num)]
  norm_num

namespace DoublePendulumSimulator

/-- The closing algebraic step of the IK round trip, over abstract values
`S = sin E`, `C = cos E`, `A = r cos α`, `sd = sin (θ-α)`, `cd = cos (θ-α)`
satisfying the law-of-cosines identities. -/
lemma roundtrip_alg (l1 l2 S C A x y r sd cd : ℝ) (hr : r ≠ 0)
    (hC : l2 * C = l1 - A) (hkey : A^2 + (l2*S)^2 = r^2)
    (hsd : sd = (x*A + y*(l2*S))/r^2) (hcd : cd = (-(y*A) + x*(l2*S))/r^2) :
    l1 * sd + l2 * (-(sd * C - cd * S)) = x
    ∧ -(l1 * cd) + -(l2 * (-(cd * C + sd * S))) = y := by
  subst hsd hcd
  constructor
  · field_simp
    linear_combination (-(x*A + y*(l2*S))) * hC + x * hkey
  · field_simp
    linear_combination (r^2 * (-(y*A) + x*(l2*S))) * hC + (y * r^2) * hkey

set_option maxHeartbeats 1600000 in
/-- Core round-trip computation in body coordinates: for a reachable target
`(x, y)` whose radius additionally satisfies `l2^2 - l1^2 ≤ radiussq` (so the
law-of-sines base angle is not obtuse), the first IK solution is mapped back
to `(x, y)` by the forward-kinematics endpoint formulas. -/
lemma ik_roundtrip_core (l1 l2 x y : ℝ) (h1 : 0 < l1) (h2 : 0 < l2)
    (hlo : |l1 - l2| ≤ radius x y) (hhi : radius x y ≤ l1 + l2)
    (hnof : l2^2 - l1^2 ≤ radiussq x y) :
    l1 * Real.sin (atan2 x (-y) - alphaIK l1 l2 x y)
      + l2 * Real.sin ((atan2 x (-y) - alphaIK l1 l2 x y)
          + (Real.pi - elbow_supplement l1 l2 x y)) = x
    ∧ -(l1 * Real.cos (atan2 x (-y) - alphaIK l1 l2 x y))
      + -(l2 * Real.cos ((atan2 x (-y) - alphaIK l1 l2 x y)
          + (Real.pi - elbow_supplement l1 l2 x y))) = y := by
  rcases eq_or_lt_of_le (radius_nonneg x y) with hr0 | hr0
  · -- degenerate target at the arm base: reachability forces l1 = l2
    have hrsq0 : radiussq x y = 0 := by
      rw [← radius_sq, ← hr0]
      norm_num
    have hxy : x = 0 ∧ y = 0 := by
      rw [radiussq] at hrsq0
      constructor <;> nlinarith
    obtain ⟨hx, hy⟩ := hxy
    have hl : l1 = l2 := by
      rw [← hr0] at hlo
      have := abs_nonpos_iff.mp hlo
      linarith [sub_eq_zero.mp this]
    have hac : acosarg l1 l2 x y = 1 := by
      rw [acosarg, hrsq0, ← hl]
      field_simp
      ring
    have hE : elbow_supplement l1 l2 x y = 0 := by
      rw [elbow_supplement, hac, if_neg (by norm_num), if_neg (by norm_num),
        Real.arccos_one]
    have ha : alphaIK l1 l2 x y = 0 := by
      rw [alphaIK, if_neg (by rw [← hr0]; exact lt_irrefl 0)]
    have hth : atan2 x (-y) = 0 := by
      rw [hx, hy, atan2]
      have hz : (⟨-(0:ℝ), (0:ℝ)⟩ : ℂ) = 0 := by
        simp [Complex.ext_iff]
      rw [hz, Complex.arg_zero]
    rw [hth, ha, hE, hx, hy, ← hl]
    norm_num [Real.sin_pi, Real.cos_pi]
  · -- regular target with positive radius
    have hr2 : radius x y ^ 2 = radiussq x y := radius_sq x y
    have h2l : (0:ℝ) < 2*l1*l2 := by positivity
    have hsqhi : radius x y ^ 2 ≤ (l1 + l2)^2 := by
      nlinarith [radius_nonneg x y]
    have hsqlo : (l1 - l2)^2 ≤ radius x y ^ 2 := by
      rw [← sq_abs (l1 - l2)]
      nlinarith [abs_nonneg (l1 - l2)]
    have hac_lo : -1 ≤ acosarg l1 l2 x y := by
      rw [acosarg_alt l1 l2 x y h1.ne' h2.ne', le_div_iff h2l]
      nlinarith
    have hac_hi : acosarg l1 l2 x y ≤ 1 := by
      rw [acosarg_alt l1 l2 x y h1.ne' h2.ne', div_le_one h2l]
      nlinarith
    have hE : elbow_supplement l1 l2 x y
        = Real.arccos (acosarg l1 l2 x y) := by
      rw [elbow_supplement, if_neg (by linarith), if_neg (by linarith)]
    have hC : Real.cos (elbow_supplement l1 l2 x y) = acosarg l1 l2 x y := by
      rw [hE, Real.cos_arccos hac_lo hac_hi]
    have hS0 : 0 ≤ Real.sin (elbow_supplement l1 l2 x y) :=
      sin_elbow_nonneg l1 l2 x y
    have hkey := l2_sin_elbow_sq l1 l2 x y h1 h2 hac_lo hac_hi
    have hA0 : 0 ≤ (l1^2 - l2^2 + radiussq x y)/(2*l1) := by
      apply div_nonneg (by linarith) (by positivity)
    have hAC : l2 * Real.cos (elbow_supplement l1 l2 x y)
        = l1 - (l1^2 - l2^2 + radiussq x y)/(2*l1) := by
      rw [hC, acosarg_alt l1 l2 x y h1.ne' h2.ne']
      field_simp
      ring
    have hkey' : ((l1^2 - l2^2 + radiussq x y)/(2*l1))^2
        + (l2 * Real.sin (elbow_supplement l1 l2 x y))^2 = radius x y ^ 2 := by
      rw [hkey, hr2]
      ring
    have hSl2 : 0 ≤ l2 * Real.sin (elbow_supplement l1 l2 x y) :=
      mul_nonneg h2.le hS0
    have hu_le : l2 * Real.sin (elbow_supplement l1 l2 x y) ≤ radius x y := by
      nlinarith [sq_nonneg ((l1^2 - l2^2 + radiussq x y)/(2*l1))]
    have ha : alphaIK l1 l2 x y
        = Real.arcsin (l2 * Real.sin (elbow_supplement l1 l2 x y) / radius x y) := by
      rw [alphaIK, if_pos hr0]
      rfl
    have harg0 : 0 ≤ l2 * Real.sin (elbow_supplement l1 l2 x y) / radius x y :=
      div_nonneg hSl2 (radius_nonneg x y)
    have hsa : Real.sin (alphaIK l1 l2 x y)
        = l2 * Real.sin (elbow_supplement l1 l2 x y) / radius x y := by
      rw [ha, Real.sin_arcsin (by linarith) ((div_le_one hr0).mpr hu_le)]
    have hca : Real.cos (alphaIK l1 l2 x y)
        = ((l1^2 - l2^2 + radiussq x y)/(2*l1)) / radius x y := by
      rw [ha, Real.cos_arcsin]
      have hrne : radius x y ^ 2 ≠ 0 := pow_ne_zero 2 hr0.ne'
      have hsub : ((l1^2 - l2^2 + radiussq x y)/(2*l1))^2
          = radius x y ^ 2 - (l2 * Real.sin (elbow_supplement l1 l2 x y))^2 := by
        linarith [hkey']
      have hval : 1 - (l2 * Real.sin (elbow_supplement l1 l2 x y) / radius x y)^2
          = (((l1^2 - l2^2 + radiussq x y)/(2*l1)) / radius x y)^2 := by
        rw [div_pow, div_pow, hsub, sub_div, div_self hrne]
      rw [hval, Real.sqrt_sq (div_nonneg hA0 hr0.le)]
    have hzne : (⟨-y, x⟩ : ℂ) ≠ 0 := by
      intro hcon
      rw [Complex.ext_iff] at hcon
      simp only [Complex.zero_re, Complex.zero_im] at hcon
      have : radiussq x y = 0 := by
        rw [radiussq, hcon.2, show y = 0 by linarith [hcon.1]]
        ring
      rw [← hr2] at this
      nlinarith
    have habs : Complex.abs ⟨-y, x⟩ = radius x y := by
      rw [Complex.abs_apply, Complex.normSq_mk, radius, radiussq, Real.sqrt]
      congr 1
      ring
    have hst : Real.sin (atan2 x (-y)) = x / radius x y := by
      rw [atan2, Complex.sin_arg, habs]
    have hct : Real.cos (atan2 x (-y)) = -y / radius x y := by
      rw [atan2, Complex.cos_arg hzne, habs]
    have e2 : Real.sin (atan2 x (-y) - alphaIK l1 l2 x y)
        = (x * ((l1^2 - l2^2 + radiussq x y)/(2*l1))
            + y * (l2 * Real.sin (elbow_supplement l1 l2 x y))) / radius x y ^ 2 := by
      rw [Real.sin_sub, hst, hct, hsa, hca]
      field_simp
      ring
    have e3 : Real.cos (atan2 x (-y) - alphaIK l1 l2 x y)
        = (-(y * ((l1^2 - l2^2 + radiussq x y)/(2*l1)))
            + x * (l2 * Real.sin (elbow_supplement l1 l2 x y))) / radius x y ^ 2 := by
      rw [Real.cos_sub, hst, hct, hsa, hca]
      field_simp
      ring
    have e1 : Real.sin ((atan2 x (-y) - alphaIK l1 l2 x y)
          + (Real.pi - elbow_supplement l1 l2 x y))
        = -(Real.sin (atan2 x (-y) - alphaIK l1 l2 x y)
              * Real.cos (elbow_supplement l1 l2 x y)
            - Real.cos (atan2 x (-y) - alphaIK l1 l2 x y)
              * Real.sin (elbow_supplement l1 l2 x y)) := by
      rw [show (atan2 x (-y) - alphaIK l1 l2 x y) + (Real.pi - elbow_supplement l1 l2 x y)
          = ((atan2 x (-y) - alphaIK l1 l2 x y) - elbow_supplement l1 l2 x y) + Real.pi
          by ring, Real.sin_add_pi, Real.sin_sub]
    have e4 : Real.cos ((atan2 x (-y) - alphaIK l1 l2 x y)
          + (Real.pi - elbow_supplement l1 l2 x y))
        = -(Real.cos (atan2 x (-y) - alphaIK l1 l2 x y)
              * Real.cos (elbow_supplement l1 l2 x y)
            + Real.sin (atan2 x (-y) - alphaIK l1 l2 x y)
              * Real.sin (elbow_supplement l1 l2 x y)) := by
      rw [show (atan2 x (-y) - alphaIK l1 l2 x y) + (Real.pi - elbow_supplement l1 l2 x y)
          = ((atan2 x (-y) - alphaIK l1 l2 x y) - elbow_supplement l1 l2 x y) + Real.pi
          by ring, Real.cos_add_pi, Real.cos_sub]
    obtain ⟨hgx, hgy⟩ := roundtrip_alg l1 l2
      (Real.sin (elbow_supplement l1 l2 x y))
      (Real.cos (elbow_supplement l1 l2 x y))
      ((l1^2 - l2^2 + radiussq x y)/(2*l1)) x y (radius x y)
      (Real.sin (atan2 x (-y) - alphaIK l1 l2 x y))
      (Real.cos (atan2 x (-y) - alphaIK l1 l2 x y))
      hr0.ne' hAC hkey' e2 e3
    exact ⟨by rw [e1]; exact hgx, by rw [e4]; exact hgy⟩

/-- The first IK solution, written out. -/
lemma endpointIK_fst (l1 l2 ox oy tx ty : ℝ) :
    (endpointIK l1 l2 ox oy tx ty).1
      = (atan2 (tx - ox) (-(ty - oy)) - alphaIK l1 l2 (tx - ox) (ty - oy),
         Real.pi - elbow_supplement l1 l2 (tx - ox) (ty - oy)) := rfl

/-- The endpoint returned by `forwardKinematics`, written out. -/
lemma forwardKinematics_endpoint (l1 l2 ox oy q1 q2 : ℝ) :
    (forwardKinematics l1 l2 ox oy q1 q2).2
      = (ox + l1 * Real.sin q1 + l2 * Real.sin (q1 + q2),
         oy + -(l1 * Real.cos q1) + -(l2 * Real.cos (q1 + q2))) := rfl

end DoublePendulumSimulator

/-- C3 fails as stated: with `l1 = 1`, `l2 = √(2+√2)` and the reachable
target `(1, 0)` (its radius `1` lies between `|l1-l2| ≈ 0.85` and
`l1+l2 ≈ 2.85`), the `asin` of `endpointIK` picks the acute base angle where
the true one is obtuse, and the first IK solution maps back to a point with
`x = 0`, not the target. -/
theorem claim_C3_counterexample :
    ((0:ℝ) < 1 ∧ (0:ℝ) < Real.sqrt (2 + Real.sqrt 2)
      ∧ |(1:ℝ) - Real.sqrt (2 + Real.sqrt 2)|
          ≤ DoublePendulumSimulator.radius ((1:ℝ) - 0) ((0:ℝ) - 0)
      ∧ DoublePendulumSimulator.radius ((1:ℝ) - 0) ((0:ℝ) - 0)
          ≤ 1 + Real.sqrt (2 + Real.sqrt 2))
    ∧ (DoublePendulumSimulator.forwardKinematics 1 (Real.sqrt (2 + Real.sqrt 2)) 0 0
        (DoublePendulumSimulator.endpointIK 1 (Real.sqrt (2 + Real.sqrt 2)) 0 0 1 0).1.1
        (DoublePendulumSimulator.endpointIK 1 (Real.sqrt (2 + Real.sqrt 2)) 0 0 1 0).1.2).2
      ≠ ((1:ℝ), (0:ℝ)) := by
  set L := Real.sqrt (2 + Real.sqrt 2) with hLdef
  have hs2 : Real.sqrt 2 ^ 2 = 2 := Real.sq_sqrt (by norm_num)
  have hs2nn : 0 ≤ Real.sqrt 2 := Real.sqrt_nonneg 2
  have hs2le : Real.sqrt 2 ≤ 2 := by nlinarith
  have hLnn : 0 ≤ L := Real.sqrt_nonneg _
  have hL2 : L ^ 2 = 2 + Real.sqrt 2 := Real.sq_sqrt (by linarith)
  have hL1 : 1 < L := by nlinarith
  have hLle : L ≤ 2 := by nlinarith
  have hmul : Real.sqrt (2 + Real.sqrt 2) * Real.sqrt (2 - Real.sqrt 2)
      = Real.sqrt 2 := by
    rw [← Real.sqrt_mul (by linarith)]
    congr 1
    linear_combination -hs2
  have hrsq : DoublePendulumSimulator.radiussq ((1:ℝ) - 0) ((0:ℝ) - 0) = 1 := by
    rw [DoublePendulumSimulator.radiussq]
    norm_num
  have hrad : DoublePendulumSimulator.radius ((1:ℝ) - 0) ((0:ℝ) - 0) = 1 := by
    rw [DoublePendulumSimulator.radius, hrsq, Real.sqrt_one]
  constructor
  · refine ⟨by norm_num, by linarith, ?_, ?_⟩
    · rw [hrad, abs_of_nonpos (by linarith)]
      linarith
    · rw [hrad]
      linarith
  · have hac : DoublePendulumSimulator.acosarg 1 L ((1:ℝ) - 0) ((0:ℝ) - 0) = L / 2 := by
      rw [DoublePendulumSimulator.acosarg, hrsq]
      rw [div_eq_div_iff (by nlinarith) (by norm_num)]
      ring
    have hE : DoublePendulumSimulator.elbow_supplement 1 L ((1:ℝ) - 0) ((0:ℝ) - 0)
        = Real.pi / 8 := by
      rw [DoublePendulumSimulator.elbow_supplement, hac,
        if_neg (not_lt.mpr (by linarith)), if_neg (not_lt.mpr (by linarith))]
      have hcos : L / 2 = Real.cos (Real.pi / 8) := by
        rw [Real.cos_pi_div_eight, hLdef]
      rw [hcos, Real.arccos_cos (by positivity) (by linarith [Real.pi_pos])]
    have hasin : DoublePendulumSimulator.asinarg 1 L ((1:ℝ) - 0) ((0:ℝ) - 0)
        = Real.sqrt 2 / 2 := by
      rw [DoublePendulumSimulator.asinarg, hE, hrad, div_one,
        Real.sin_pi_div_eight, hLdef, ← mul_div_assoc, hmul]
    have halpha : DoublePendulumSimulator.alphaIK 1 L ((1:ℝ) - 0) ((0:ℝ) - 0)
        = Real.pi / 4 := by
      rw [DoublePendulumSimulator.alphaIK, if_pos (by rw [hrad]; norm_num), hasin,
        show Real.sqrt 2 / 2 = Real.sin (Real.pi / 4) from Real.sin_pi_div_four.symm,
        Real.arcsin_sin (by linarith [Real.pi_pos]) (by linarith [Real.pi_pos])]
    have htheta : DoublePendulumSimulator.atan2 ((1:ℝ) - 0) (-((0:ℝ) - 0))
        = Real.pi / 2 := by
      rw [DoublePendulumSimulator.atan2]
      have hI : (⟨-((0:ℝ) - 0), (1:ℝ) - 0⟩ : ℂ) = Complex.I := by
        rw [Complex.ext_iff]
        constructor <;> norm_num [Complex.I_re, Complex.I_im]
      rw [hI, Complex.arg_I]
    have hq1 : (DoublePendulumSimulator.endpointIK 1 L 0 0 1 0).1.1
        = Real.pi / 2 - Real.pi / 4 := by
      rw [DoublePendulumSimulator.endpointIK_fst, htheta, halpha]
    have hq2 : (DoublePendulumSimulator.endpointIK 1 L 0 0 1 0).1.2
        = Real.pi - Real.pi / 8 := by
      rw [DoublePendulumSimulator.endpointIK_fst, hE]
    have hend1 : (DoublePendulumSimulator.forwardKinematics 1 L 0 0
        (DoublePendulumSimulator.endpointIK 1 L 0 0 1 0).1.1
        (DoublePendulumSimulator.endpointIK 1 L 0 0 1 0).1.2).2.1 = 0 := by
      rw [hq1, hq2, DoublePendulumSimulator.forwardKinematics_endpoint]
      show 0 + 1 * Real.sin (Real.pi / 2 - Real.pi / 4)
          + L * Real.sin ((Real.pi / 2 - Real.pi / 4) + (Real.pi - Real.pi / 8)) = 0
      rw [show Real.pi / 2 - Real.pi / 4 = Real.pi / 4 by ring]
      rw [show Real.pi / 4 + (Real.pi - Real.pi / 8) = Real.pi / 8 + Real.pi by ring,
        Real.sin_add_pi, Real.sin_pi_div_four, Real.sin_pi_div_eight, hLdef]
      linear_combination (-(1:ℝ)/2) * hmul
    intro hcon
    have hx' := congrArg Prod.fst hcon
    rw [hend1] at hx'
    exact absurd hx' (by norm_num)

/-- C3 (amended): for every reachable target whose radius `r` additionally
satisfies `l2^2 - l1^2 ≤ r^2` (automatic whenever `l2 ≤ l1`, and in
particular for the simulator's default equal link lengths), feeding the
first joint-angle solution of `endpointIK(target)` into `forwardKinematics`
reproduces `target` as the endpoint position. -/
theorem claim_C3_amended (l1 l2 ox oy tx ty : ℝ) (h1 : 0 < l1) (h2 : 0 < l2)
    (hlo : |l1 - l2| ≤ DoublePendulumSimulator.radius (tx - ox) (ty - oy))
    (hhi : DoublePendulumSimulator.radius (tx - ox) (ty - oy) ≤ l1 + l2)
    (hnof : l2^2 - l1^2 ≤ DoublePendulumSimulator.radiussq (tx - ox) (ty - oy)) :
    (DoublePendulumSimulator.forwardKinematics l1 l2 ox oy
        (DoublePendulumSimulator.endpointIK l1 l2 ox oy tx ty).1.1
        (DoublePendulumSimulator.endpointIK l1 l2 ox oy tx ty).1.2).2 = (tx, ty) := by
  obtain ⟨hx, hy⟩ := DoublePendulumSimulator.ik_roundtrip_core l1 l2 (tx - ox) (ty - oy)
    h1 h2 hlo hhi hnof
  rw [DoublePendulumSimulator.endpointIK_fst,
    DoublePendulumSimulator.forwardKinematics_endpoint, Prod.mk.injEq]
  constructor
  · linarith [hx]
  · linarith [hy]

theorem claim_C3_witness :
    (DoublePendulumSimulator.forwardKinematics 1 1 0 0
        (DoublePendulumSimulator.endpointIK 1 1 0 0 0 (-2)).1.1
        (DoublePendulumSimulator.endpointIK 1 1 0 0 0 (-2)).1.2).2 = ((0:ℝ), (-2:ℝ)) := by
  have hrsq : DoublePendulumSimulator.radiussq ((0:ℝ) - 0) ((-2:ℝ) - 0) = 4 := by
    rw [DoublePendulumSimulator.radiussq]
    norm_num
  have hrad : DoublePendulumSimulator.radius ((0:ℝ) - 0) ((-2:ℝ) - 0) = 2 := by
    rw [DoublePendulumSimulator.radius, hrsq, show (4:ℝ) = 2^2 by norm_num,
      Real.sqrt_sq (by norm_num)]
  exact claim_C3_amended 1 1 0 0 0 (-2) (by norm_num) (by norm_num)
    (by rw [hrad]; norm_num) (by rw [hrad]; norm_num) (by rw [hrsq]; norm_num)

/-- C10: `connect_controller` attaches the controller, sets its `model`
back-reference, and fully resets the simulator: `t = 0`, `tau = [0,0]`, and
`state` equal to the controller's `initial_state` regardless of any state
accumulated before — and (value semantics rendering the `.copy()`) a later
change of the controller's `initial_state` leaves the simulator's state
equal to the original vector. -/
theorem claim_C10 (sim : Simulator) (c : Controller) (v : Vec4) :
    (sim.connect_controller c).t = 0
    ∧ (sim.connect_controller c).tau = (0, 0)
    ∧ (sim.connect_controller c).state = c.initial_state
    ∧ (sim.connect_controller c).control = some { c with model_connected := true }
    ∧ ({ sim.connect_controller c with
          control := some { c with initial_state := v, model_connected := true } }).state
        = c.initial_state := by
  refine ⟨rfl, rfl, rfl, rfl, rfl⟩

end PJ4082
